import Mathlib

/-!
Verification of the credential / webhook / session-token layer of the
restaurant-voice-ai server.

The JavaScript sources are embedded shallowly: byte strings are
`List Nat` (one entry per byte), JS `Map`s are association lists, and
nondeterminism (fresh random IVs, the wall clock, network responses) is
passed in as explicit parameters.  The AES-256-GCM primitive from
Node's crypto library is external to the repository; it is modelled as
an ideal authenticated cipher: the keystream is a reversible per-byte
mask derived from key and IV, and the 16-entry authentication tag is an
injective function of (key, IV, ciphertext), which is the standard
idealisation of an unforgeable AEAD tag.
-/

namespace RestaurantVoiceAI

/-- Injective encoding of a byte list into a natural number; used by the
ideal cipher and MAC models so that tags determine their inputs. -/
def encodeL : List Nat → Nat
  | [] => 0
  | a :: l => Nat.pair a (encodeL l) + 1

theorem encodeL_injective : Function.Injective encodeL := by
  intro l1 l2 h
  induction l1 generalizing l2 with
  | nil =>
    cases l2 with
    | nil => rfl
    | cons b m => simp [encodeL] at h
  | cons a l ih =>
    cases l2 with
    | nil => simp [encodeL] at h
    | cons b m =>
      simp only [encodeL, Nat.add_right_cancel_iff, Nat.pair_eq_pair] at h
      rw [h.1, ih h.2]

/-- `IV_LENGTH` from src/utils/encryption.js (16 bytes). -/
def IV_LENGTH : Nat := 16

/-- `AUTH_TAG_LENGTH` from src/utils/encryption.js (16 bytes). -/
def AUTH_TAG_LENGTH : Nat := 16

/-- Ideal-cipher keystream byte for position `i`, derived from key and
IV; stands in for the AES-CTR keystream inside AES-256-GCM. -/
def keystreamByte (key iv : List Nat) (i : Nat) : Nat :=
  Nat.pair (encodeL key) (Nat.pair (encodeL iv) i) % 256

/-- CTR-style byte-wise encryption starting at counter `i`. -/
def ctrEnc (key iv : List Nat) : Nat → List Nat → List Nat
  | _, [] => []
  | i, b :: rest => (b + keystreamByte key iv i) % 256 :: ctrEnc key iv (i + 1) rest

/-- CTR-style byte-wise decryption (the inverse mask). -/
def ctrDec (key iv : List Nat) : Nat → List Nat → List Nat
  | _, [] => []
  | i, b :: rest => (b + (256 - keystreamByte key iv i)) % 256 :: ctrDec key iv (i + 1) rest

theorem ctrDec_ctrEnc (key iv : List Nat) (i : Nat) (pt : List Nat)
    (h : ∀ b ∈ pt, b < 256) : ctrDec key iv i (ctrEnc key iv i pt) = pt := by
  induction pt generalizing i with
  | nil => rfl
  | cons b rest ih =>
    have hb : b < 256 := h b (by simp)
    simp only [ctrEnc, ctrDec, List.cons.injEq]
    refine ⟨?_, ih (i + 1) (fun x hx => h x (by simp [hx]))⟩
    have hks : keystreamByte key iv i < 256 := Nat.mod_lt _ (by norm_num)
    omega

theorem ctrEnc_length (key iv : List Nat) (i : Nat) (pt : List Nat) :
    (ctrEnc key iv i pt).length = pt.length := by
  induction pt generalizing i with
  | nil => rfl
  | cons b rest ih => simp [ctrEnc, ih]

/-- Ideal GCM authentication tag over (key, IV, ciphertext): 16 tag
entries whose first determines all three inputs; models the
unforgeability of the real 16-byte GCM tag. -/
def gcmTag (key iv ct : List Nat) : List Nat :=
  Nat.pair (encodeL key) (Nat.pair (encodeL iv) (encodeL ct))
    :: List.replicate (AUTH_TAG_LENGTH - 1) 0

theorem gcmTag_length (key iv ct : List Nat) :
    (gcmTag key iv ct).length = AUTH_TAG_LENGTH := by
  simp [gcmTag, AUTH_TAG_LENGTH]

theorem gcmTag_inj {key iv ct iv2 ct2 : List Nat}
    (h : gcmTag key iv ct = gcmTag key iv2 ct2) : iv = iv2 ∧ ct = ct2 := by
  simp only [gcmTag, List.cons.injEq, Nat.add_right_cancel_iff, Nat.pair_eq_pair] at h
  exact ⟨encodeL_injective h.1.2.1, encodeL_injective h.1.2.2⟩

/-- Result of `decrypt` in src/utils/encryption.js: the function either
returns the plaintext, returns JS `null` (falsy input), or throws —
the spec's `DecryptionError`. -/
inductive DecryptResult
  | ok (pt : List Nat)
  | nullValue
  | error
deriving DecidableEq, Repr

/-- `encrypt` (src/utils/encryption.js): a fresh random 16-byte IV (the
nondeterministic parameter `iv`), ideal-GCM ciphertext and auth tag,
combined as IV ‖ tag ‖ ciphertext.  The JS guard
`if (!plaintext) return null` is applied by the callers that pass
possibly-empty data (`storeTokens`). -/
def encryptBytes (key iv pt : List Nat) : List Nat :=
  iv ++ gcmTag key iv (ctrEnc key iv 0 pt) ++ ctrEnc key iv 0 pt

/-- `decrypt` (src/utils/encryption.js): return `null` on falsy input,
else split the combined buffer into IV, auth tag and ciphertext exactly
as the source's `subarray` calls do; ideal GCM accepts exactly when the
tag equals the tag of (key, IV, ciphertext), and every failure inside
the try block is rethrown as the single decryption error. -/
def decrypt (key data : List Nat) : DecryptResult :=
  if data = [] then .nullValue
  else
    let iv := data.take IV_LENGTH
    let tag := (data.drop IV_LENGTH).take AUTH_TAG_LENGTH
    let ct := data.drop (IV_LENGTH + AUTH_TAG_LENGTH)
    if tag = gcmTag key iv ct then .ok (ctrDec key iv 0 ct) else .error

theorem parse_parts (key : List Nat) (iv tag ct : List Nat)
    (hiv : iv.length = IV_LENGTH) (htag : tag.length = AUTH_TAG_LENGTH) :
    decrypt key (iv ++ tag ++ ct) =
      if tag = gcmTag key iv ct then .ok (ctrDec key iv 0 ct) else .error := by
  have hne : iv ++ tag ++ ct ≠ [] := by
    intro h
    have := congrArg List.length h
    simp [hiv, IV_LENGTH] at this
  have e1 : (iv ++ tag ++ ct).take IV_LENGTH = iv := by
    rw [List.append_assoc]
    exact List.take_left' hiv
  have e2 : ((iv ++ tag ++ ct).drop IV_LENGTH).take AUTH_TAG_LENGTH = tag := by
    rw [List.append_assoc, List.drop_left' hiv]
    exact List.take_left' htag
  have e3 : (iv ++ tag ++ ct).drop (IV_LENGTH + AUTH_TAG_LENGTH) = ct :=
    List.drop_left' (by simp [hiv, htag])
  rw [decrypt, if_neg hne]
  rw [e1, e2, e3]

theorem decrypt_encryptBytes (key iv pt : List Nat) (hiv : iv.length = IV_LENGTH)
    (hpt : ∀ b ∈ pt, b < 256) :
    decrypt key (encryptBytes key iv pt) = .ok pt := by
  unfold encryptBytes
  rw [parse_parts key iv _ _ hiv (gcmTag_length key iv (ctrEnc key iv 0 pt)),
    if_pos rfl, ctrDec_ctrEnc key iv 0 pt hpt]

theorem set_ne_of_ne {α : Type _} {l : List α} {j : Nat} (hj : j < l.length) {b : α}
    (hb : l[j]? ≠ some b) : l.set j b ≠ l := by
  intro h
  rw [← h, List.getElem?_set_self (by simpa using hj)] at hb
  exact hb rfl

theorem decrypt_set_error (key iv ct : List Nat) (hiv : iv.length = IV_LENGTH)
    (i : Nat) (hi : i < (iv ++ gcmTag key iv ct ++ ct).length) (b : Nat)
    (hb : (iv ++ gcmTag key iv ct ++ ct)[i]? ≠ some b) :
    decrypt key ((iv ++ gcmTag key iv ct ++ ct).set i b) = .error := by
  have htag : (gcmTag key iv ct).length = AUTH_TAG_LENGTH := gcmTag_length key iv ct
  have hivtag : (iv ++ gcmTag key iv ct).length = IV_LENGTH + AUTH_TAG_LENGTH := by
    simp [hiv, htag]
  rcases Nat.lt_or_ge i IV_LENGTH with hcase | hcase
  · -- the altered byte lies in the IV
    have hset : (iv ++ gcmTag key iv ct ++ ct).set i b
        = iv.set i b ++ gcmTag key iv ct ++ ct := by
      rw [List.set_append_left _ _ (by omega), List.set_append_left _ _ (by omega)]
    rw [hset, parse_parts key _ _ _ (by simp [hiv]) htag, if_neg]
    intro h
    obtain ⟨h1, _⟩ := gcmTag_inj h
    refine set_ne_of_ne (show i < iv.length by omega) ?_ h1.symm
    rw [List.getElem?_append_left (by omega : i < (iv ++ gcmTag key iv ct).length),
      List.getElem?_append_left (by omega : i < iv.length)] at hb
    exact hb
  rcases Nat.lt_or_ge i (IV_LENGTH + AUTH_TAG_LENGTH) with hcase2 | hcase2
  · -- the altered byte lies in the auth tag
    have hset : (iv ++ gcmTag key iv ct ++ ct).set i b
        = iv ++ (gcmTag key iv ct).set (i - IV_LENGTH) b ++ ct := by
      rw [List.set_append_left _ _ (by omega),
        List.set_append_right _ _ (by omega), hiv]
    rw [hset, parse_parts key _ _ _ hiv (by simp [htag]), if_neg]
    intro h
    refine set_ne_of_ne (show i - IV_LENGTH < (gcmTag key iv ct).length by omega) ?_ h
    rw [List.getElem?_append_left (by omega : i < (iv ++ gcmTag key iv ct).length),
      List.getElem?_append_right (by omega : iv.length ≤ i), hiv] at hb
    exact hb
  · -- the altered byte lies in the ciphertext
    have hset : (iv ++ gcmTag key iv ct ++ ct).set i b
        = iv ++ gcmTag key iv ct ++ ct.set (i - (IV_LENGTH + AUTH_TAG_LENGTH)) b := by
      rw [List.set_append_right _ _ (by omega), hivtag]
    rw [hset, parse_parts key _ _ _ hiv htag, if_neg]
    intro h
    obtain ⟨_, h2⟩ := gcmTag_inj h
    have hlen : i < IV_LENGTH + AUTH_TAG_LENGTH + ct.length := by
      have := hi
      simp only [List.length_append, hiv, htag] at this
      omega
    refine set_ne_of_ne (show i - (IV_LENGTH + AUTH_TAG_LENGTH) < ct.length by omega)
      ?_ h2.symm
    rw [List.getElem?_append_right (by omega : (iv ++ gcmTag key iv ct).length ≤ i),
      hivtag] at hb
    exact hb

theorem decrypt_take_not_ok (key iv ct : List Nat) (hiv : iv.length = IV_LENGTH)
    (n : Nat) (hn : n < (iv ++ gcmTag key iv ct ++ ct).length) (pt2 : List Nat) :
    decrypt key ((iv ++ gcmTag key iv ct ++ ct).take n) ≠ .ok pt2 := by
  have htag : (gcmTag key iv ct).length = AUTH_TAG_LENGTH := gcmTag_length key iv ct
  have hivtag : (iv ++ gcmTag key iv ct).length = IV_LENGTH + AUTH_TAG_LENGTH := by
    simp [hiv, htag]
  have hlen : (iv ++ gcmTag key iv ct ++ ct).length
      = IV_LENGTH + AUTH_TAG_LENGTH + ct.length := by
    simp only [List.length_append, hiv, htag]
  rcases Nat.eq_or_lt_of_le (Nat.zero_le n) with hzero | hpos
  · rw [← hzero, List.take_zero, decrypt, if_pos rfl]
    intro h
    exact DecryptResult.noConfusion h
  rcases Nat.lt_or_ge n (IV_LENGTH + AUTH_TAG_LENGTH) with hsmall | hbig
  · -- truncated inside IV ‖ tag: the recovered tag is too short
    have hne2 : ¬ ((iv ++ gcmTag key iv ct ++ ct).take n = []) := by
      intro h
      have := congrArg List.length h
      simp only [List.length_take, List.length_nil, hlen] at this
      omega
    have htagne : ¬ ((((iv ++ gcmTag key iv ct ++ ct).take n).drop IV_LENGTH).take
          AUTH_TAG_LENGTH
        = gcmTag key (((iv ++ gcmTag key iv ct ++ ct).take n).take IV_LENGTH)
            (((iv ++ gcmTag key iv ct ++ ct).take n).drop
              (IV_LENGTH + AUTH_TAG_LENGTH))) := by
      intro h
      have := congrArg List.length h
      simp only [List.length_take, List.length_drop, gcmTag_length, hlen] at this
      simp only [AUTH_TAG_LENGTH, IV_LENGTH] at this hsmall
      omega
    rw [decrypt, if_neg hne2, if_neg htagne]
    intro h
    exact DecryptResult.noConfusion h
  · -- truncated inside the ciphertext: the recovered ciphertext is a
    -- proper prefix of the authenticated one
    have hform : (iv ++ gcmTag key iv ct ++ ct).take n
        = iv ++ gcmTag key iv ct ++ ct.take (n - (IV_LENGTH + AUTH_TAG_LENGTH)) := by
      conv_lhs =>
        rw [show n = (iv ++ gcmTag key iv ct).length + (n - (IV_LENGTH + AUTH_TAG_LENGTH))
          by rw [hivtag]; omega]
      rw [List.take_append]
    rw [hform, parse_parts key _ _ _ hiv htag, if_neg]
    · intro h
      exact DecryptResult.noConfusion h
    · intro h
      obtain ⟨_, h2⟩ := gcmTag_inj h
      have := congrArg List.length h2
      simp only [List.length_take] at this
      omega

/-- Claim C1: for every well-formed stored ciphertext, altering any
single byte of it makes `decrypt` fail by throwing (the spec's
`DecryptionError`), and `decrypt` of any truncation of it never returns
a plaintext — in particular it never returns altered or partial
plaintext. -/
theorem decrypt_rejects_tampering (key iv pt : List Nat) (hiv : iv.length = IV_LENGTH) :
    (∀ i, i < (encryptBytes key iv pt).length → ∀ b,
        (encryptBytes key iv pt)[i]? ≠ some b →
        decrypt key ((encryptBytes key iv pt).set i b) = .error) ∧
    (∀ n, n < (encryptBytes key iv pt).length → ∀ pt2,
        decrypt key ((encryptBytes key iv pt).take n) ≠ .ok pt2) := by
  constructor
  · intro i hi b hb
    exact decrypt_set_error key iv (ctrEnc key iv 0 pt) hiv i hi b hb
  · intro n hn pt2
    exact decrypt_take_not_ok key iv (ctrEnc key iv 0 pt) hiv n hn pt2

/-- Concrete instance of the tamper-rejection theorem: flipping the
first byte of an encryption of [7, 8] makes decryption fail. -/
theorem decrypt_rejects_tampering_witness :
    decrypt [1] ((encryptBytes [1] (List.replicate 16 0) [7, 8]).set 0 5) = .error :=
  (decrypt_rejects_tampering [1] (List.replicate 16 0) [7, 8] (by decide)).1 0
    (by decide) 5 (by decide)

/-- Association-list model of a JS `Map`: `get` returns the value of
the first matching key. -/
def mapGet {α : Type _} : List (String × α) → String → Option α
  | [], _ => none
  | (k2, v) :: rest, k => if k2 = k then some v else mapGet rest k

/-- Association-list model of a JS `Map`: `set` replaces in place
(keeping insertion order) or appends. -/
def mapSet {α : Type _} (m : List (String × α)) (k : String) (v : α) :
    List (String × α) :=
  match m with
  | [] => [(k, v)]
  | (k2, v2) :: rest => if k2 = k then (k, v) :: rest else (k2, v2) :: mapSet rest k v

/-- Association-list model of a JS `Map`: `delete`. -/
def mapDel {α : Type _} (m : List (String × α)) (k : String) : List (String × α) :=
  m.filter (fun p => p.1 != k)

theorem mapGet_mapSet_self {α : Type _} (m : List (String × α)) (k : String) (v : α) :
    mapGet (mapSet m k v) k = some v := by
  induction m with
  | nil => simp [mapGet, mapSet]
  | cons p rest ih =>
    obtain ⟨k2, v2⟩ := p
    by_cases h : k2 = k
    · simp [mapSet, h, mapGet]
    · simpa [mapSet, h, mapGet] using ih

theorem mapGet_mapSet_ne {α : Type _} (m : List (String × α)) (k k2 : String) (v : α)
    (h : k2 ≠ k) : mapGet (mapSet m k v) k2 = mapGet m k2 := by
  induction m with
  | nil => simp [mapGet, mapSet, Ne.symm h]
  | cons p rest ih =>
    obtain ⟨k3, v3⟩ := p
    by_cases h3 : k3 = k
    · subst h3
      simp [mapSet, mapGet, Ne.symm h]
    · by_cases h4 : k3 = k2
      · subst h4
        simp [mapSet, h3, mapGet]
      · simpa [mapSet, h3, mapGet, h4] using ih

theorem mapGet_mapDel_self {α : Type _} (m : List (String × α)) (k : String) :
    mapGet (mapDel m k) k = none := by
  induction m with
  | nil => rfl
  | cons p rest ih =>
    obtain ⟨k2, v2⟩ := p
    by_cases h : k2 = k
    · subst h
      simpa [mapDel, List.filter_cons, bne_self_eq_false] using ih
    · have hb : (k2 != k) = true := by simpa [bne_iff_ne] using h
      simpa [mapDel, List.filter_cons, hb, mapGet, h] using ih

theorem mapGet_filter_none {α : Type _} (m : List (String × α)) (k : String)
    (p : String × α → Bool) (h : mapGet m k = none) :
    mapGet (m.filter p) k = none := by
  induction m with
  | nil => rfl
  | cons q rest ih =>
    obtain ⟨k2, v2⟩ := q
    by_cases hk : k2 = k
    · subst hk
      simp [mapGet] at h
    · have hrest : mapGet rest k = none := by
        simpa [mapGet, hk] using h
      by_cases hp : p (k2, v2)
      · simpa [List.filter, hp, mapGet, hk] using ih hrest
      · simpa [List.filter, hp] using ih hrest

theorem mapGet_mapDel_none {α : Type _} (m : List (String × α)) (k k2 : String)
    (h : mapGet m k = none) : mapGet (mapDel m k2) k = none :=
  mapGet_filter_none m k _ h

theorem mapGet_mapSet_none {α : Type _} (m : List (String × α)) (k k2 : String) (v : α)
    (hne : k2 ≠ k) (h : mapGet m k = none) : mapGet (mapSet m k2 v) k = none := by
  rw [mapGet_mapSet_ne m k2 k v (Ne.symm hne)]
  exact h

/-- A stored credential record (the value in the token-manager `Map`):
tokens are stored encrypted; `none` models JS `null` (a falsy token was
passed to `storeTokens`). -/
structure StoredRecord where
  platform : String
  merchantId : String
  accessToken : Option (List Nat)
  refreshToken : Option (List Nat)
  expiresAt : Nat
  restaurantId : Option String
  updatedAt : Nat
deriving DecidableEq, Repr

/-- Plaintext input to `storeTokens`. -/
structure TokenData where
  platform : String
  merchantId : String
  accessToken : List Nat
  refreshToken : List Nat
  expiresAt : Nat
  restaurantId : Option String
deriving DecidableEq, Repr

abbrev TokenStore := List (String × StoredRecord)

/-- `storeTokens` (src/auth/token-manager.js): encrypt each token when
truthy (`tokenData.accessToken ? encryption.encrypt(...) : null`), stamp
`updatedAt`, and write the record wholesale under the key
`platform + "_" + merchantId`.  `ivA` and `ivR` are the fresh random
IVs drawn by the two `encrypt` calls; `now` is the clock. -/
def storeTokens (key : List Nat) (now : Nat) (ivA ivR : List Nat)
    (store : TokenStore) (d : TokenData) : TokenStore :=
  mapSet store (d.platform ++ "_" ++ d.merchantId)
    { platform := d.platform
      merchantId := d.merchantId
      accessToken := if d.accessToken = [] then none
                     else some (encryptBytes key ivA d.accessToken)
      refreshToken := if d.refreshToken = [] then none
                      else some (encryptBytes key ivR d.refreshToken)
      expiresAt := d.expiresAt
      restaurantId := d.restaurantId
      updatedAt := now }

/-- `decrypt` applied to a stored, possibly-null field: the JS
`decrypt` returns `null` on falsy input. -/
def decryptField (key : List Nat) : Option (List Nat) → DecryptResult
  | none => .nullValue
  | some data => decrypt key data

/-- Collapse a decryption outcome into the value the JS caller sees:
`none` means the decrypt call threw, `some v` means it returned `v`
(`v = none` being JS `null`). -/
def decryptedOrThrow : DecryptResult → Option (Option (List Nat))
  | .error => none
  | .nullValue => some none
  | .ok pt => some (some pt)

/-- Result of `getAccessToken`: the returned value, or the thrown error
(`NotFoundError`, `RefreshFailedError`, or a decryption error escaping
the final `encryption.decrypt` call, which sits outside every try). -/
inductive GetResult
  | ok (tok : Option (List Nat))
  | notFound
  | refreshFailed
  | decryptError
deriving DecidableEq, Repr

/-- Response shape of the external `refreshAccessToken` /
`exchangeCodeForTokens` calls (src/auth/square-oauth.js). -/
structure RefreshResponse where
  accessToken : List Nat
  refreshToken : List Nat
  expiresAt : Nat
  merchantId : String
deriving DecidableEq, Repr

/-- The refresh-ahead window of `getAccessToken`: one day in
milliseconds (`24 * 60 * 60 * 1000`). -/
def REFRESH_WINDOW_MS : Nat := 24 * 60 * 60 * 1000

/-- `getAccessToken` (src/auth/token-manager.js).  `refreshFn` is the
injected `square-oauth.refreshAccessToken` network call (`none` models
a thrown error); `ivA`/`ivR` are the fresh IVs for the nested
`storeTokens` on the refresh path; `now` is the clock.  Returns
(result, token store afterwards, whether the refresh network call was
invoked).  The expiry check and the refresh are performed only for
`platform === 'square'`; every other platform falls through to the
final decrypt-and-return. -/
def getAccessToken (key : List Nat) (now : Nat) (ivA ivR : List Nat)
    (refreshFn : Option (List Nat) → Option RefreshResponse)
    (store : TokenStore) (platform merchantId : String) :
    GetResult × TokenStore × Bool :=
  match mapGet store (platform ++ "_" ++ merchantId) with
  | none => (.notFound, store, false)
  | some td =>
    if platform = "square" ∧ td.expiresAt ≤ now + REFRESH_WINDOW_MS then
      match decryptedOrThrow (decryptField key td.refreshToken) with
      | none => (.refreshFailed, store, false)
      | some rt =>
        match refreshFn rt with
        | none => (.refreshFailed, store, true)
        | some nt =>
          (.ok (some nt.accessToken),
           storeTokens key now ivA ivR store
             { platform := "square"
               merchantId := nt.merchantId
               accessToken := nt.accessToken
               refreshToken := nt.refreshToken
               expiresAt := nt.expiresAt
               restaurantId := td.restaurantId },
           true)
    else
      match decryptedOrThrow (decryptField key td.accessToken) with
      | none => (.decryptError, store, false)
      | some v => (.ok v, store, false)

/-- Claim C2: for every (platform, merchantId) pair and every token
record whose `expiresAt` is more than the one-day refresh-ahead window
in the future, `storeTokens` followed immediately by `getAccessToken`
for the same pair returns exactly the access token that was stored —
the encrypt/decrypt round trip is the identity, no refresh is
triggered, and the store is left as written.  The access token is a
nonempty byte string (a falsy token would be stored as JS `null`). -/
theorem store_then_get_roundtrip (key : List Nat) (now : Nat)
    (ivA ivR ivA2 ivR2 : List Nat)
    (refreshFn : Option (List Nat) → Option RefreshResponse)
    (store : TokenStore) (d : TokenData)
    (hacc : d.accessToken ≠ [])
    (hbytes : ∀ b ∈ d.accessToken, b < 256)
    (hiv : ivA.length = IV_LENGTH)
    (hexp : now + REFRESH_WINDOW_MS < d.expiresAt) :
    getAccessToken key now ivA2 ivR2 refreshFn
        (storeTokens key now ivA ivR store d) d.platform d.merchantId
      = (.ok (some d.accessToken), storeTokens key now ivA ivR store d, false) := by
  simp only [getAccessToken, storeTokens, mapGet_mapSet_self]
  rw [if_neg (by rintro ⟨-, hle⟩; exact Nat.lt_irrefl _ (Nat.lt_of_lt_of_le hexp hle))]
  rw [if_neg hacc]
  simp only [decryptField, decrypt_encryptBytes key ivA d.accessToken hiv hbytes,
    decryptedOrThrow]

/-- Concrete instance of the store/get round trip. -/
theorem store_then_get_roundtrip_witness :
    getAccessToken [1] 0 [] [] (fun _ => none)
        (storeTokens [1] 0 (List.replicate 16 0) (List.replicate 16 1) []
          { platform := "square", merchantId := "m1", accessToken := [7],
            refreshToken := [9], expiresAt := 86400001, restaurantId := none })
        "square" "m1"
      = (.ok (some [7]),
         storeTokens [1] 0 (List.replicate 16 0) (List.replicate 16 1) []
          { platform := "square", merchantId := "m1", accessToken := [7],
            refreshToken := [9], expiresAt := 86400001, restaurantId := none },
         false) :=
  store_then_get_roundtrip [1] 0 (List.replicate 16 0) (List.replicate 16 1) [] []
    (fun _ => none) []
    { platform := "square", merchantId := "m1", accessToken := [7],
      refreshToken := [9], expiresAt := 86400001, restaurantId := none }
    (by decide) (by decide) (by decide) (by decide)

/-- Claim C3 (amended): full behaviour of `getAccessToken` — a missing
record throws the not-found error; a record for platform "square" whose
`expiresAt` falls within the one-day refresh-ahead window triggers a
synchronous refresh (decrypt the refresh token, invoke the injected
refresh function, on success re-store the new tokens and return the new
access token, on failure throw the refresh-failed error); every other
case — including every non-"square" platform, whatever its expiry —
returns the decrypted stored access token with the store unchanged. -/
theorem getAccessToken_spec (key : List Nat) (now : Nat) (ivA ivR : List Nat)
    (refreshFn : Option (List Nat) → Option RefreshResponse)
    (store : TokenStore) (platform merchantId : String) :
    (mapGet store (platform ++ "_" ++ merchantId) = none →
      getAccessToken key now ivA ivR refreshFn store platform merchantId
        = (.notFound, store, false)) ∧
    (∀ td, mapGet store (platform ++ "_" ++ merchantId) = some td →
      platform = "square" → td.expiresAt ≤ now + REFRESH_WINDOW_MS →
      getAccessToken key now ivA ivR refreshFn store platform merchantId
        = match decryptedOrThrow (decryptField key td.refreshToken) with
          | none => (.refreshFailed, store, false)
          | some rt =>
            match refreshFn rt with
            | none => (.refreshFailed, store, true)
            | some nt =>
              (.ok (some nt.accessToken),
               storeTokens key now ivA ivR store
                 { platform := "square", merchantId := nt.merchantId,
                   accessToken := nt.accessToken, refreshToken := nt.refreshToken,
                   expiresAt := nt.expiresAt, restaurantId := td.restaurantId },
               true)) ∧
    (∀ td, mapGet store (platform ++ "_" ++ merchantId) = some td →
      (platform ≠ "square" ∨ now + REFRESH_WINDOW_MS < td.expiresAt) →
      getAccessToken key now ivA ivR refreshFn store platform merchantId
        = (match decryptedOrThrow (decryptField key td.accessToken) with
           | none => GetResult.decryptError
           | some v => GetResult.ok v, store, false)) := by
  refine ⟨fun hnone => ?_, fun td hrec hsq hexp => ?_, fun td hrec hout => ?_⟩
  · simp only [getAccessToken, hnone]
  · simp only [getAccessToken, hrec]
    rw [if_pos ⟨hsq, hexp⟩]
  · simp only [getAccessToken, hrec]
    rw [if_neg (by rintro ⟨h1, h2⟩; rcases hout with h | h; exacts [h h1, by omega])]
    rcases decryptedOrThrow (decryptField key td.accessToken) with _ | v <;> rfl

/-- Concrete instance of the refresh path of the amended C3: an expired
"square" record is refreshed through the injected refresh function, the
new tokens are re-stored, and the new access token is returned. -/
theorem getAccessToken_spec_witness :
    getAccessToken [] 7 [] [] (fun _ => some ⟨[3], [4], 5, "m2"⟩)
        [("square_m1", ⟨"square", "m1", none, none, 0, none, 0⟩)] "square" "m1"
      = (.ok (some [3]),
         storeTokens [] 7 [] []
           [("square_m1", ⟨"square", "m1", none, none, 0, none, 0⟩)]
           ⟨"square", "m2", [3], [4], 5, none⟩, true) :=
  (getAccessToken_spec [] 7 [] [] (fun _ => some ⟨[3], [4], 5, "m2"⟩)
      [("square_m1", ⟨"square", "m1", none, none, 0, none, 0⟩)] "square" "m1").2.1
    ⟨"square", "m1", none, none, 0, none, 0⟩ (by decide) rfl (by decide)

/-- Counterexample to claim C3 as stated: a record for platform "toast"
whose `expiresAt` (0) falls within the one-day refresh-ahead window is
returned decrypted with no refresh invoked (third component `false`),
although the injected refresh function would have succeeded — the code
performs the expiry check and refresh only for platform "square". -/
theorem getAccessToken_no_refresh_non_square_counterexample :
    getAccessToken [] 0 [] [] (fun _ => some ⟨[9], [9], 99, "m1"⟩)
        [("toast_m1", ⟨"toast", "m1", none, none, 0, none, 0⟩)] "toast" "m1"
      = (.ok none, [("toast_m1", ⟨"toast", "m1", none, none, 0, none, 0⟩)], false) := by
  decide

/-- Claim C10: for every platform other than "square", `getAccessToken`
never consults `expiresAt` and never invokes a refresh: whenever a
record exists for the key it returns the decrypt of the stored
access-token field — however far past expiry the record is — with the
store unchanged and the refresh function not invoked. -/
theorem getAccessToken_non_square (key : List Nat) (now : Nat) (ivA ivR : List Nat)
    (refreshFn : Option (List Nat) → Option RefreshResponse)
    (store : TokenStore) (platform merchantId : String) (td : StoredRecord)
    (hplat : platform ≠ "square")
    (hrec : mapGet store (platform ++ "_" ++ merchantId) = some td) :
    getAccessToken key now ivA ivR refreshFn store platform merchantId
      = (match decryptedOrThrow (decryptField key td.accessToken) with
         | none => GetResult.decryptError
         | some v => GetResult.ok v, store, false) := by
  simp only [getAccessToken, hrec]
  rw [if_neg (by rintro ⟨h, -⟩; exact hplat h)]
  rcases decryptedOrThrow (decryptField key td.accessToken) with _ | v <;> rfl

/-- Concrete instance of the non-"square" read path: a long-expired
"toast" record is returned as stored, without refresh. -/
theorem getAccessToken_non_square_witness :
    getAccessToken [1] 999999999999 [] [] (fun _ => none)
        [("toast_m2", ⟨"toast", "m2", none, none, 3, none, 0⟩)] "toast" "m2"
      = (.ok none, [("toast_m2", ⟨"toast", "m2", none, none, 3, none, 0⟩)], false) :=
  getAccessToken_non_square [1] 999999999999 [] [] (fun _ => none)
    [("toast_m2", ⟨"toast", "m2", none, none, 3, none, 0⟩)] "toast" "m2"
    ⟨"toast", "m2", none, none, 3, none, 0⟩ (by decide) (by decide)

/-- Value stored in the `csrfTokens` map (src/auth/square-oauth.js). -/
structure CsrfData where
  timestamp : Nat
  restaurantId : Option String
deriving DecidableEq, Repr

abbrev CsrfMap := List (String × CsrfData)

/-- HTTP-level outcome of the OAuth `callback` handler
(src/auth/square-oauth.js): forwarded provider error (400), invalid
state parameter (400), failed token exchange (500), or success. -/
inductive CallbackResult
  | denied (err : String)
  | invalidState
  | exchangeFailed
  | success (merchantId : String)
deriving DecidableEq, Repr

/-- `callback` (src/auth/square-oauth.js): reject when the provider
reported an error; otherwise validate the CSRF state and consume
(delete) it strictly before the token exchange; exchange the code via
the external call `exchangeFn` (`none` models a non-success response);
on success store the tokens through `storeTokens`.  Returns (result,
CSRF map afterwards, vault afterwards, whether the exchange network
call was made). -/
def callback (key : List Nat) (now : Nat) (ivA ivR : List Nat)
    (exchangeFn : String → Option RefreshResponse)
    (m : CsrfMap) (vault : TokenStore) (code state : String) (err : Option String) :
    CallbackResult × CsrfMap × TokenStore × Bool :=
  match err with
  | some e => (.denied e, m, vault, false)
  | none =>
    match mapGet m state with
    | none => (.invalidState, m, vault, false)
    | some csrfData =>
      let m2 := mapDel m state
      match exchangeFn code with
      | none => (.exchangeFailed, m2, vault, true)
      | some tokens =>
        (.success tokens.merchantId, m2,
         storeTokens key now ivA ivR vault
           { platform := "square"
             merchantId := tokens.merchantId
             accessToken := tokens.accessToken
             refreshToken := tokens.refreshToken
             expiresAt := tokens.expiresAt
             restaurantId := csrfData.restaurantId },
         true)

/-- Argument bundle for one `callback` invocation, used to quantify over
arbitrary intervening calls. -/
structure CallbackArgs where
  key : List Nat
  now : Nat
  ivA : List Nat
  ivR : List Nat
  exchangeFn : String → Option RefreshResponse
  code : String
  state : String
  err : Option String

/-- Run a sequence of `callback` invocations, threading the CSRF map
and the vault. -/
def runCallbacks : CsrfMap × TokenStore → List CallbackArgs → CsrfMap × TokenStore
  | s, [] => s
  | (m, vault), a :: rest =>
    runCallbacks
      ((callback a.key a.now a.ivA a.ivR a.exchangeFn m vault a.code a.state a.err).2.1,
       (callback a.key a.now a.ivA a.ivR a.exchangeFn m vault a.code a.state a.err).2.2.1)
      rest

theorem callback_state_absent (key : List Nat) (now : Nat) (ivA ivR : List Nat)
    (exchangeFn : String → Option RefreshResponse) (m : CsrfMap) (vault : TokenStore)
    (code state : String) (h : mapGet m state = none) :
    callback key now ivA ivR exchangeFn m vault code state none
      = (.invalidState, m, vault, false) := by
  simp only [callback, h]

theorem callback_preserves_absent (key : List Nat) (now : Nat) (ivA ivR : List Nat)
    (exchangeFn : String → Option RefreshResponse) (m : CsrfMap) (vault : TokenStore)
    (code state : String) (err : Option String) (s : String)
    (h : mapGet m s = none) :
    mapGet (callback key now ivA ivR exchangeFn m vault code state err).2.1 s = none := by
  rcases err with _ | e
  · rcases hg : mapGet m state with _ | d
    · simpa [callback, hg] using h
    · simp only [callback, hg]
      rcases exchangeFn code with _ | t
      · simpa using mapGet_mapDel_none m s state h
      · simpa using mapGet_mapDel_none m s state h
  · simpa [callback] using h

theorem runCallbacks_preserves_absent (s : String) (calls : List CallbackArgs) :
    ∀ st : CsrfMap × TokenStore, mapGet st.1 s = none →
      mapGet (runCallbacks st calls).1 s = none := by
  induction calls with
  | nil => intro st h; exact h
  | cons c rest ih =>
    intro st h
    obtain ⟨m, vault⟩ := st
    simp only [runCallbacks]
    exact ih _ (callback_preserves_absent c.key c.now c.ivA c.ivR c.exchangeFn
      m vault c.code c.state c.err s h)

/-- Claim C4: a CSRF state is single-use.  Once a `callback` call
consumes a pending state (no provider error, state present — it is
deleted before the token exchange), every later `callback` call that
presents the same state, after arbitrary intervening `callback` calls,
fails with the invalid-state error and performs no token exchange. -/
theorem csrf_state_single_use (a : CallbackArgs) (m : CsrfMap) (vault : TokenStore)
    (calls : List CallbackArgs) (bkey : List Nat) (bnow : Nat) (bivA bivR : List Nat)
    (bex : String → Option RefreshResponse) (bcode : String)
    (hpresent : mapGet m a.state ≠ none) (haerr : a.err = none) :
    callback bkey bnow bivA bivR bex
        (runCallbacks
          ((callback a.key a.now a.ivA a.ivR a.exchangeFn m vault a.code a.state a.err).2.1,
           (callback a.key a.now a.ivA a.ivR a.exchangeFn m vault a.code a.state a.err).2.2.1)
          calls).1
        (runCallbacks
          ((callback a.key a.now a.ivA a.ivR a.exchangeFn m vault a.code a.state a.err).2.1,
           (callback a.key a.now a.ivA a.ivR a.exchangeFn m vault a.code a.state a.err).2.2.1)
          calls).2
        bcode a.state none
      = (.invalidState,
         (runCallbacks
          ((callback a.key a.now a.ivA a.ivR a.exchangeFn m vault a.code a.state a.err).2.1,
           (callback a.key a.now a.ivA a.ivR a.exchangeFn m vault a.code a.state a.err).2.2.1)
          calls).1,
         (runCallbacks
          ((callback a.key a.now a.ivA a.ivR a.exchangeFn m vault a.code a.state a.err).2.1,
           (callback a.key a.now a.ivA a.ivR a.exchangeFn m vault a.code a.state a.err).2.2.1)
          calls).2,
         false) := by
  have hconsumed :
      mapGet (callback a.key a.now a.ivA a.ivR a.exchangeFn m vault
        a.code a.state a.err).2.1 a.state = none := by
    rcases hg : mapGet m a.state with _ | d
    · exact absurd hg hpresent
    · simp only [callback, haerr, hg]
      rcases a.exchangeFn a.code with _ | t
      · simpa using mapGet_mapDel_self m a.state
      · simpa using mapGet_mapDel_self m a.state
  have habsent := runCallbacks_preserves_absent a.state calls
    ((callback a.key a.now a.ivA a.ivR a.exchangeFn m vault a.code a.state a.err).2.1,
     (callback a.key a.now a.ivA a.ivR a.exchangeFn m vault a.code a.state a.err).2.2.1)
    hconsumed
  exact callback_state_absent bkey bnow bivA bivR bex _ _ bcode a.state habsent

/-- Concrete instance of the single-use property: replaying the same
state after it was consumed is rejected without an exchange. -/
theorem csrf_state_single_use_witness :
    callback [] 0 [] [] (fun _ => none)
        (runCallbacks
          ((callback [] 0 [] [] (fun _ => none)
              [("s1", ⟨0, none⟩)] [] "c" "s1" none).2.1,
           (callback [] 0 [] [] (fun _ => none)
              [("s1", ⟨0, none⟩)] [] "c" "s1" none).2.2.1)
          []).1
        (runCallbacks
          ((callback [] 0 [] [] (fun _ => none)
              [("s1", ⟨0, none⟩)] [] "c" "s1" none).2.1,
           (callback [] 0 [] [] (fun _ => none)
              [("s1", ⟨0, none⟩)] [] "c" "s1" none).2.2.1)
          []).2
        "c2" "s1" none
      = (.invalidState,
         (runCallbacks
          ((callback [] 0 [] [] (fun _ => none)
              [("s1", ⟨0, none⟩)] [] "c" "s1" none).2.1,
           (callback [] 0 [] [] (fun _ => none)
              [("s1", ⟨0, none⟩)] [] "c" "s1" none).2.2.1)
          []).1,
         (runCallbacks
          ((callback [] 0 [] [] (fun _ => none)
              [("s1", ⟨0, none⟩)] [] "c" "s1" none).2.1,
           (callback [] 0 [] [] (fun _ => none)
              [("s1", ⟨0, none⟩)] [] "c" "s1" none).2.2.1)
          []).2,
         false) :=
  csrf_state_single_use ⟨[], 0, [], [], fun _ => none, "c", "s1", none⟩
    [("s1", ⟨0, none⟩)] [] [] [] 0 [] [] (fun _ => none) "c2"
    (by decide) rfl

/-- Ideal HMAC-SHA256 (Node crypto, external to the repo): modelled as
an injective function of key and message, the idealisation of an
unforgeable MAC. -/
def hmacSHA256 (key msg : List Nat) : List Nat :=
  [Nat.pair (encodeL key) (encodeL msg)]

theorem hmacSHA256_msg_inj {key msg1 msg2 : List Nat}
    (h : hmacSHA256 key msg1 = hmacSHA256 key msg2) : msg1 = msg2 := by
  simp only [hmacSHA256, List.cons.injEq, Nat.pair_eq_pair, and_true] at h
  exact encodeL_injective h.2

/-- `verifySignature` (src/webhooks/square-webhook.js): with no
configured signature key verification is bypassed (returns true); a
missing signature header returns false; otherwise the provided
signature is compared against HMAC-SHA256 of notification URL ‖ body —
the `crypto.timingSafeEqual` comparison, whose length-mismatch throw is
caught and turned into `return false`, is equality here. -/
def verifySignature (signatureKey : Option (List Nat)) (notificationUrl : List Nat)
    (body : List Nat) (signature : Option (List Nat)) : Bool :=
  match signatureKey with
  | none => true
  | some key =>
    match signature with
    | none => false
    | some sig => decide (sig = hmacSHA256 key (notificationUrl ++ body))

/-- Claim C5: with a configured shared secret, `verifySignature`
returns true exactly when the provided signature equals HMAC-SHA256 of
the canonical URL concatenated with the raw body; any change to body or
signature under a previously valid signature makes it return false; a
missing signature returns false (the function is total — decode/length
mismatches yield false, never an exception). -/
theorem verifySignature_spec (key url body sig : List Nat) :
    (verifySignature (some key) url body (some sig) = true ↔
      sig = hmacSHA256 key (url ++ body)) ∧
    (∀ body2, body2 ≠ body → sig = hmacSHA256 key (url ++ body) →
      verifySignature (some key) url body2 (some sig) = false) ∧
    (∀ sig2, sig2 ≠ sig → sig = hmacSHA256 key (url ++ body) →
      verifySignature (some key) url body (some sig2) = false) ∧
    verifySignature (some key) url body none = false := by
  refine ⟨by simp [verifySignature], fun body2 hne hsig => ?_, fun sig2 hne hsig => ?_, rfl⟩
  · simp only [verifySignature, decide_eq_false_iff_not]
    intro h
    exact hne (List.append_cancel_left (hmacSHA256_msg_inj (hsig ▸ h : hmacSHA256 key
      (url ++ body) = hmacSHA256 key (url ++ body2))).symm)
  · simp only [verifySignature, decide_eq_false_iff_not]
    intro h
    exact hne (h.trans hsig.symm)

/-- Concrete instance: the correct signature verifies, a one-bit
change to the body makes verification fail. -/
theorem verifySignature_spec_witness :
    verifySignature (some [1]) [2] [3] (some (hmacSHA256 [1] ([2] ++ [3]))) = true ∧
    verifySignature (some [1]) [2] [2] (some (hmacSHA256 [1] ([2] ++ [3]))) = false :=
  ⟨(verifySignature_spec [1] [2] [3] (hmacSHA256 [1] ([2] ++ [3]))).1.mpr rfl,
   (verifySignature_spec [1] [2] [3] (hmacSHA256 [1] ([2] ++ [3]))).2.1 [2]
     (by decide) rfl⟩

/-- `processEvent` (src/webhooks/square-webhook.js) as it affects the
dedup state.  The seen set is kept in insertion order (JS `Set`
iteration order).  `handlerOk` says whether the handler dispatched by
the `switch` returned normally (`false` = it threw; the `catch` only
logs).  An already-seen event id is skipped before any dispatch.  A
fresh id is dispatched (first component `true`); `processedEvents.add`
and the size check sit inside the `try` after the `switch`, so only
when the handler returns normally is the id recorded, and when
membership then exceeds 1000 entries the oldest 500 in insertion order
(`Array.from(...).slice(0, 500)`) are deleted.  A throwing handler
leaves the set unchanged.  Returns (dispatched?, seen set
afterwards). -/
def processEvent (seen : List String) (eventId : String) (handlerOk : Bool) :
    Bool × List String :=
  if eventId ∈ seen then (false, seen)
  else
    match handlerOk with
    | false => (true, seen)
    | true =>
      let s := seen ++ [eventId]
      if 1000 < s.length then (true, s.drop 500) else (true, s)

theorem processEvent_mem (s : List String) (id : String) (hok : Bool) (h : id ∈ s) :
    processEvent s id hok = (false, s) := by
  simp [processEvent, h]

/-- Counterexample to claim C8 as stated: `processedEvents.add` sits
inside the `try` after the dispatch `switch`, so when the handler of
the first delivery throws the id is not recorded and a repeat delivery
of the very same id, with no eviction in between, is dispatched again —
dispatch is not exactly-once per event id before eviction. -/
theorem processEvent_double_dispatch_counterexample :
    processEvent [] "evt_1" false = (true, []) ∧
    processEvent [] "evt_1" true = (true, ["evt_1"]) := by
  decide

/-- Claim C8 (amended): the deduper dispatches an event id exactly once
per successful processing: an id whose handler completed is recorded,
and any repeat before eviction — whatever its own handler would do — is
skipped (`false`) with the set unchanged; an unrecorded id (fresh, or
previously dispatched only with a throwing handler, which skips the
add) is dispatched (`true`); when a recording makes membership exceed
1000 entries, exactly the oldest 500 entries by insertion order are
evicted.  The bound `seen.length ≤ 1000` is the invariant the eviction
maintains. -/
theorem processEvent_spec (seen : List String) (id : String)
    (hb : seen.length ≤ 1000) :
    (∀ hok, id ∈ seen → processEvent seen id hok = (false, seen)) ∧
    (id ∉ seen → processEvent seen id false = (true, seen)) ∧
    (id ∉ seen →
      processEvent seen id true =
        (true, if seen.length = 1000 then (seen ++ [id]).drop 500 else seen ++ [id]) ∧
      id ∈ (processEvent seen id true).2 ∧
      (∀ hok, processEvent (processEvent seen id true).2 id hok
        = (false, (processEvent seen id true).2)) ∧
      (processEvent seen id true).2.length ≤ 1000) := by
  refine ⟨fun hok hmem => processEvent_mem seen id hok hmem,
    fun hmem => by simp [processEvent, hmem], fun hmem => ?_⟩
  have hform : processEvent seen id true =
      (true, if seen.length = 1000 then (seen ++ [id]).drop 500 else seen ++ [id]) := by
    simp only [processEvent, if_neg hmem]
    by_cases hlen : seen.length = 1000
    · rw [if_pos (by simp [hlen]), if_pos hlen]
    · rw [if_neg (by simp; omega), if_neg hlen]
  have hmem2 : id ∈ (processEvent seen id true).2 := by
    rw [hform]
    by_cases hlen : seen.length = 1000
    · simp only [hlen, if_pos rfl]
      rw [List.drop_append_of_le_length (by omega)]
      simp
    · simp [hlen]
  refine ⟨hform, hmem2, fun hok => processEvent_mem _ id hok hmem2, ?_⟩
  rw [hform]
  by_cases hlen : seen.length = 1000
  · simp [hlen]
  · simp only [if_neg hlen, List.length_append, List.length_cons, List.length_nil]
    omega

/-- Concrete instance of the amended claim: a fresh id whose handler
completes is dispatched and recorded; the immediate repeat is skipped
even though its own handler would throw. -/
theorem processEvent_spec_witness :
    processEvent ["e1"] "e2" true = (true, ["e1", "e2"]) ∧
    processEvent ["e1", "e2"] "e2" false = (false, ["e1", "e2"]) :=
  ⟨((processEvent_spec ["e1"] "e2" (by decide)).2.2 (by decide)).1,
   by
    have h := ((processEvent_spec ["e1"] "e2" (by decide)).2.2 (by decide)).2.2.1 false
    rwa [((processEvent_spec ["e1"] "e2" (by decide)).2.2 (by decide)).1] at h⟩

/-- Decoded user claims of a session JWT (src/auth/jwt-auth.js). -/
structure JwtPayload where
  userId : String
  email : String
  role : String
deriving DecidableEq, Repr

/-- Abstract model of a signed JWT: the decoded claims plus the secret
it was signed with (`signedWith` stands in for the signature — the
external `jsonwebtoken` library verifies exactly that the token was
signed with the given secret) and the embedded `type`, `jti` and
expiry. -/
structure Jwt where
  payload : JwtPayload
  type : String
  jti : String
  exp : Nat
  signedWith : Nat
deriving DecidableEq, Repr

/-- Outcome of `verifyToken` (src/auth/jwt-auth.js): expired
(`TokenExpiredError` → 'Token expired'), invalid signature
(`JsonWebTokenError` → 'Invalid token'), or the decoded token. -/
inductive VerifyOutcome
  | expired
  | invalid
  | ok (t : Jwt)
deriving DecidableEq, Repr

/-- `verifyToken` (src/auth/jwt-auth.js): `jwt.verify` checks the
signature and then expiry. -/
def verifyToken (secret : Nat) (now : Nat) (t : Jwt) : VerifyOutcome :=
  if t.signedWith ≠ secret then .invalid
  else if t.exp ≤ now then .expired
  else .ok t

/-- Outcome of the `authenticateJWT` middleware (src/auth/jwt-auth.js):
a 401 with the given message, or the authenticated user attached to the
request. -/
inductive AuthOutcome
  | unauthorized (msg : String)
  | authed (userId email role : String)
deriving DecidableEq, Repr

/-- `authenticateJWT` (src/auth/jwt-auth.js), from the point where the
bearer token has been extracted from the authorization header (`none`
models a missing/malformed header): verify, then reject any token whose
embedded `type` is not 'access'. -/
def authenticateJWT (secret now : Nat) (tok : Option Jwt) : AuthOutcome :=
  match tok with
  | none => .unauthorized "No authorization header provided"
  | some t =>
    match verifyToken secret now t with
    | .invalid => .unauthorized "Invalid token"
    | .expired => .unauthorized "Token expired"
    | .ok t2 =>
      if t2.type ≠ "access" then .unauthorized "Invalid token type"
      else .authed t2.payload.userId t2.payload.email t2.payload.role

/-- Entry of the in-memory `refreshTokenStore` (src/auth/jwt-auth.js),
keyed by `jti`. -/
structure RefreshEntry where
  userId : String
  createdAt : Nat
  expiresAt : Nat
deriving DecidableEq, Repr

abbrev RefreshStore := List (String × RefreshEntry)

/-- Outcome of `refreshAccessToken` (src/auth/jwt-auth.js): signature /
expiry failures from `verifyToken`, 'Invalid token type' for a
non-refresh token, 'Refresh token revoked or invalid' when the `jti` is
not registered, or a freshly issued access token. -/
inductive RefreshOutcome
  | invalid
  | expired
  | wrongType
  | revoked
  | issued (newAccess : Jwt)
deriving DecidableEq, Repr

/-- `refreshAccessToken` (src/auth/jwt-auth.js): verify the refresh
token, require embedded type 'refresh', require the `jti` to still be
registered (not revoked), then issue a new access token only (the
refresh token is not rotated).  `accessTtl` abstracts the parsed
`JWT_EXPIRES_IN` (15 minutes by default). -/
def refreshAccess (secret now accessTtl : Nat) (store : RefreshStore) (t : Jwt) :
    RefreshOutcome :=
  match verifyToken secret now t with
  | .invalid => .invalid
  | .expired => .expired
  | .ok t2 =>
    if t2.type ≠ "refresh" then .wrongType
    else if (mapGet store t2.jti).isNone then .revoked
    else .issued
      { payload := t2.payload, type := "access", jti := "",
        exp := now + accessTtl, signedWith := secret }

/-- `revokeRefreshToken` (src/auth/jwt-auth.js): `jwt.decode` (no
verification) and delete the `jti` from the registry. -/
def revokeRefreshToken (store : RefreshStore) (t : Jwt) : RefreshStore :=
  mapDel store t.jti

/-- `revokeAllUserTokens` (src/auth/jwt-auth.js). -/
def revokeAllUserTokens (store : RefreshStore) (userId : String) : RefreshStore :=
  store.filter (fun p => p.2.userId != userId)

/-- `cleanExpiredRefreshTokens` (src/auth/jwt-auth.js): drop entries
whose `expiresAt` is in the past. -/
def cleanExpiredRefreshTokens (store : RefreshStore) (now : Nat) : RefreshStore :=
  store.filter (fun p => !decide (p.2.expiresAt < now))

/-- Registry effect of `generateRefreshToken` (src/auth/jwt-auth.js): a
fresh `jti` (from `crypto.randomUUID`) is registered, then the
opportunistic expiry sweep runs. -/
def registerRefreshToken (store : RefreshStore) (now : Nat) (jti : String)
    (e : RefreshEntry) : RefreshStore :=
  cleanExpiredRefreshTokens (mapSet store jti e) now

/-- One mutation of the refresh-token registry. -/
inductive RegistryOp
  | register (now : Nat) (jti : String) (e : RefreshEntry)
  | revokeOne (t : Jwt)
  | revokeAll (userId : String)
  | sweep (now : Nat)

/-- Apply one registry mutation. -/
def applyRegistryOp (store : RefreshStore) : RegistryOp → RefreshStore
  | .register now jti e => registerRefreshToken store now jti e
  | .revokeOne t => revokeRefreshToken store t
  | .revokeAll userId => revokeAllUserTokens store userId
  | .sweep now => cleanExpiredRefreshTokens store now

/-- Apply a sequence of registry mutations. -/
def applyRegistryOps (store : RefreshStore) (ops : List RegistryOp) : RefreshStore :=
  ops.foldl applyRegistryOp store

/-- Claim C6: token-type confusion is rejected.  Any token whose
embedded type is 'refresh' is rejected by access-token verification
(`authenticateJWT`), and any token whose embedded type is not 'refresh'
is rejected by `refreshAccess` — even when signature and expiry are
valid. -/
theorem token_type_confusion_rejected (secret now accessTtl : Nat) (t : Jwt)
    (hsig : t.signedWith = secret) (hexp : now < t.exp) :
    (t.type = "refresh" →
      authenticateJWT secret now (some t) = .unauthorized "Invalid token type") ∧
    (t.type ≠ "refresh" → ∀ store : RefreshStore,
      refreshAccess secret now accessTtl store t = .wrongType) := by
  have hver : verifyToken secret now t = .ok t := by
    rw [verifyToken, if_neg (by simp [hsig]), if_neg (by omega)]
  constructor
  · intro htype
    simp only [authenticateJWT, hver]
    rw [if_pos (by simp [htype])]
  · intro htype store
    simp only [refreshAccess, hver]
    rw [if_pos htype]

/-- Concrete instance: a valid refresh token is rejected as an access
token, and a valid access token is rejected by refresh. -/
theorem token_type_confusion_rejected_witness :
    authenticateJWT 5 0 (some ⟨⟨"u", "e", "r"⟩, "refresh", "j", 10, 5⟩)
      = .unauthorized "Invalid token type" ∧
    refreshAccess 5 0 900000 [("j", ⟨"u", 0, 10⟩)] ⟨⟨"u", "e", "r"⟩, "access", "j", 10, 5⟩
      = .wrongType :=
  ⟨(token_type_confusion_rejected 5 0 900000 ⟨⟨"u", "e", "r"⟩, "refresh", "j", 10, 5⟩
      rfl (by decide)).1 rfl,
   (token_type_confusion_rejected 5 0 900000 ⟨⟨"u", "e", "r"⟩, "access", "j", 10, 5⟩
      rfl (by decide)).2 (by decide) [("j", ⟨"u", 0, 10⟩)]⟩

theorem applyRegistryOps_preserves_absent (jti : String) (ops : List RegistryOp)
    (hfresh : ∀ op ∈ ops, ∀ n j e, op = .register n j e → j ≠ jti) :
    ∀ store : RefreshStore, mapGet store jti = none →
      mapGet (applyRegistryOps store ops) jti = none := by
  induction ops with
  | nil => intro store h; exact h
  | cons op rest ih =>
    intro store h
    simp only [applyRegistryOps, List.foldl_cons]
    refine ih (fun o ho n j e he => hfresh o (by simp [ho]) n j e he) _ ?_
    rcases op with ⟨n, j, e⟩ | t | uid | n
    · exact mapGet_filter_none _ jti _
        (mapGet_mapSet_none store jti j e (hfresh _ (by simp) n j e rfl) h)
    · exact mapGet_mapDel_none _ jti t.jti h
    · exact mapGet_filter_none _ jti _ h
    · exact mapGet_filter_none _ jti _ h

/-- Claim C7: once a refresh token is revoked, every later
`refreshAccess` call with that token fails with the revoked-token
error — even though its signature and expiry remain valid — and no
later registry operation reactivates the entry (fresh registrations use
new random `jti`s, the freshness hypothesis). -/
theorem revoked_token_stays_revoked (secret now accessTtl : Nat)
    (store : RefreshStore) (t : Jwt) (ops : List RegistryOp)
    (hsig : t.signedWith = secret) (hexp : now < t.exp) (htype : t.type = "refresh")
    (hfresh : ∀ op ∈ ops, ∀ n j e, op = .register n j e → j ≠ t.jti) :
    refreshAccess secret now accessTtl
        (applyRegistryOps (revokeRefreshToken store t) ops) t
      = .revoked := by
  have habsent : mapGet (applyRegistryOps (revokeRefreshToken store t) ops) t.jti
      = none :=
    applyRegistryOps_preserves_absent t.jti ops hfresh _ (mapGet_mapDel_self store t.jti)
  have hver : verifyToken secret now t = .ok t := by
    rw [verifyToken, if_neg (by simp [hsig]), if_neg (by omega)]
  simp only [refreshAccess, hver]
  rw [if_neg (by simp [htype]), if_pos (by simp [habsent])]

/-- Concrete instance: a still-valid refresh token fails with the
revoked error right after revocation, and still fails after another
user's registration and a sweep. -/
theorem revoked_token_stays_revoked_witness :
    refreshAccess 5 0 900000
        (applyRegistryOps
          (revokeRefreshToken [("j", ⟨"u", 0, 10⟩)] ⟨⟨"u", "e", "r"⟩, "refresh", "j", 10, 5⟩)
          [.register 0 "k" ⟨"v", 0, 10⟩, .sweep 0])
        ⟨⟨"u", "e", "r"⟩, "refresh", "j", 10, 5⟩
      = .revoked :=
  revoked_token_stays_revoked 5 0 900000 [("j", ⟨"u", 0, 10⟩)]
    ⟨⟨"u", "e", "r"⟩, "refresh", "j", 10, 5⟩ [.register 0 "k" ⟨"v", 0, 10⟩, .sweep 0]
    rfl (by decide) rfl
    (by
      rintro op hop n j e rfl
      simp only [List.mem_cons, List.mem_singleton] at hop
      rcases hop with h | h | h
      · cases h; decide
      · exact absurd h (by simp)
      · cases h)

/-- Phase of one in-flight async `getAccessToken` call: `ready` before
its synchronous prefix has run, `refreshing` while suspended at the
`await` on the refresh network call (one in-flight refresh attempt,
carrying the decrypted refresh token and the record's restaurant id),
`finished` afterwards. -/
inductive CallPhase
  | ready
  | refreshing (rt : Option (List Nat)) (restaurantId : Option String)
  | finished (r : GetResult)
deriving DecidableEq, Repr

/-- One scheduler step of an in-flight `getAccessToken (platform,
merchantId)` call against the shared token store.  From `ready` it runs
the synchronous prefix of the source — store lookup, platform/expiry
check, refresh-token decryption — up to the `await
refreshAccessToken(...)` suspension point; from `refreshing` it
completes the awaited call, re-stores the new tokens on success, and
finishes.  There is no lock anywhere in the source, so a step never
blocks on the other call's phase. -/
def stepCall (key : List Nat) (now : Nat) (ivA ivR : List Nat)
    (refreshFn : Option (List Nat) → Option RefreshResponse)
    (platform merchantId : String) (st : TokenStore) (pc : CallPhase) :
    TokenStore × CallPhase :=
  match pc with
  | .ready =>
    match mapGet st (platform ++ "_" ++ merchantId) with
    | none => (st, .finished .notFound)
    | some td =>
      if platform = "square" ∧ td.expiresAt ≤ now + REFRESH_WINDOW_MS then
        match decryptedOrThrow (decryptField key td.refreshToken) with
        | none => (st, .finished .refreshFailed)
        | some rt => (st, .refreshing rt td.restaurantId)
      else
        match decryptedOrThrow (decryptField key td.accessToken) with
        | none => (st, .finished .decryptError)
        | some v => (st, .finished (.ok v))
  | .refreshing rt restaurantId =>
    match refreshFn rt with
    | none => (st, .finished .refreshFailed)
    | some nt =>
      (storeTokens key now ivA ivR st
        { platform := "square"
          merchantId := nt.merchantId
          accessToken := nt.accessToken
          refreshToken := nt.refreshToken
          expiresAt := nt.expiresAt
          restaurantId := restaurantId },
       .finished (.ok (some nt.accessToken)))
  | .finished r => (st, .finished r)

/-- Two concurrent `getAccessToken` calls for the same (platform,
merchantId) key sharing the token store. -/
structure TwoCalls where
  store : TokenStore
  callA : CallPhase
  callB : CallPhase
deriving DecidableEq, Repr

/-- Run one scheduler step of call A (`true`) or call B (`false`). -/
def stepTask (key : List Nat) (now : Nat) (ivA ivR : List Nat)
    (refreshFn : Option (List Nat) → Option RefreshResponse)
    (platform merchantId : String) (s : TwoCalls) : Bool → TwoCalls
  | true =>
    { store := (stepCall key now ivA ivR refreshFn platform merchantId s.store s.callA).1
      callA := (stepCall key now ivA ivR refreshFn platform merchantId s.store s.callA).2
      callB := s.callB }
  | false =>
    { store := (stepCall key now ivA ivR refreshFn platform merchantId s.store s.callB).1
      callA := s.callA
      callB := (stepCall key now ivA ivR refreshFn platform merchantId s.store s.callB).2 }

/-- Run a schedule: the list says which call moves at each step. -/
def runSchedule (key : List Nat) (now : Nat) (ivA ivR : List Nat)
    (refreshFn : Option (List Nat) → Option RefreshResponse)
    (platform merchantId : String) (s : TwoCalls) (sched : List Bool) : TwoCalls :=
  sched.foldl (stepTask key now ivA ivR refreshFn platform merchantId) s

/-- Claim C9 (amended): `getAccessToken` takes no lock at all.  For
every "square" record whose `expiresAt` falls within the refresh-ahead
window (and whose refresh-token decryption does not throw), the
interleaving in which both concurrent same-key calls run their
synchronous prefix before either awaited refresh completes leaves both
calls simultaneously in the in-flight refreshing phase: two
simultaneous refresh attempts for the same key. -/
theorem concurrent_same_key_double_refresh (key : List Nat) (now : Nat)
    (ivA ivR : List Nat) (refreshFn : Option (List Nat) → Option RefreshResponse)
    (st : TokenStore) (platform merchantId : String) (td : StoredRecord)
    (rt : Option (List Nat))
    (hrec : mapGet st (platform ++ "_" ++ merchantId) = some td)
    (hsq : platform = "square") (hexp : td.expiresAt ≤ now + REFRESH_WINDOW_MS)
    (hdec : decryptedOrThrow (decryptField key td.refreshToken) = some rt) :
    (runSchedule key now ivA ivR refreshFn platform merchantId
        ⟨st, .ready, .ready⟩ [true, false]).callA
      = .refreshing rt td.restaurantId ∧
    (runSchedule key now ivA ivR refreshFn platform merchantId
        ⟨st, .ready, .ready⟩ [true, false]).callB
      = .refreshing rt td.restaurantId := by
  have hstep : stepCall key now ivA ivR refreshFn platform merchantId st .ready
      = (st, .refreshing rt td.restaurantId) := by
    simp only [stepCall, hrec]
    rw [if_pos ⟨hsq, hexp⟩, hdec]
  have hrun : runSchedule key now ivA ivR refreshFn platform merchantId
      ⟨st, .ready, .ready⟩ [true, false]
      = ⟨st, .refreshing rt td.restaurantId, .refreshing rt td.restaurantId⟩ := by
    simp only [runSchedule, List.foldl_cons, List.foldl_nil, stepTask, hstep]
  rw [hrun]
  exact ⟨rfl, rfl⟩

/-- Concrete instance of the double-refresh interleaving. -/
theorem concurrent_same_key_double_refresh_witness :
    (runSchedule [] 0 [] [] (fun _ => some ⟨[9], [9], 99, "m1"⟩) "square" "m1"
        ⟨[("square_m1", ⟨"square", "m1", none, none, 0, none, 0⟩)], .ready, .ready⟩
        [true, false]).callA = .refreshing none none ∧
    (runSchedule [] 0 [] [] (fun _ => some ⟨[9], [9], 99, "m1"⟩) "square" "m1"
        ⟨[("square_m1", ⟨"square", "m1", none, none, 0, none, 0⟩)], .ready, .ready⟩
        [true, false]).callB = .refreshing none none :=
  concurrent_same_key_double_refresh [] 0 [] [] (fun _ => some ⟨[9], [9], 99, "m1"⟩)
    [("square_m1", ⟨"square", "m1", none, none, 0, none, 0⟩)] "square" "m1"
    ⟨"square", "m1", none, none, 0, none, 0⟩ none (by decide) rfl (by decide) rfl

/-- Counterexample to claim C9 as stated: with an expiring "square"
record in the store, the schedule that runs both same-key calls'
synchronous prefixes back to back puts both calls in the in-flight
refreshing phase at once — the code has no per-key mutual exclusion, so
two simultaneous refresh attempts for the same key do occur. -/
theorem concurrent_same_key_double_refresh_counterexample :
    (runSchedule [] 0 [] [] (fun _ => some ⟨[9], [9], 99, "m7"⟩) "square" "m7"
        ⟨[("square_m7", ⟨"square", "m7", none, none, 5, some "r1", 0⟩)], .ready, .ready⟩
        [true, false])
      = ⟨[("square_m7", ⟨"square", "m7", none, none, 5, some "r1", 0⟩)],
         .refreshing none (some "r1"), .refreshing none (some "r1")⟩ := by
  decide

end RestaurantVoiceAI
